import Mathlib

/-!
# terraform-provider-azurerm: storage share state migration and subscriptions data source

A shallow embedding of

* `azurerm/internal/services/storage/storage_share_resource_migration.go`
  (`ResourceStorageShareStateUpgradeV0ToV1`, `ResourceStorageShareStateUpgradeV1ToV2`);
* `azurerm/internal/services/subscription/data_source_subscriptions.go`
  (`dataSourceSubscriptionsRead`).

Modelling conventions.

* A Go `map[string]interface{}` is an association list read by first match; assignment
  `m[k] = v` replaces the first binding of `k` or appends one.
* A Go call either panics or returns; a returning call of type `(T, error)` hands back both
  the value and the (possibly nil) error.  `Run` records exactly this.
* A single-value type assertion `x.(string)` panics unless `x` holds a string.
* Go strings are taken to be valid UTF-8, so that splitting, prefix and substring tests on
  bytes agree with the same tests on characters.
* `log.Printf` calls only write a diagnostic trace and are left out.
-/

namespace AzureRM

/-! ## Go values and maps -/

/-- Dynamic values held in a `map[string]interface{}`. `nil` is the nil interface value,
which is also what indexing a map at an absent key yields. -/
inductive Value where
  | nil
  | str (s : String)
  | int (n : Int)
  | bool (b : Bool)
  | strMap (kvs : List (String × String))
  deriving DecidableEq, Repr

/-- Outcome of a Go call returning `(σ, error)`: a run-time panic, or a return carrying the
value and the error (`none` is the nil error). -/
inductive Run (σ : Type) where
  | panic
  | returned (val : σ) (err : Option String)
  deriving DecidableEq, Repr

/-- A Go `map[string]interface{}`. -/
abbrev State := List (String × Value)

namespace State

/-- Map index expression `m[k]`: the nil interface when `k` is absent. -/
def get : State → String → Value
  | [], _ => Value.nil
  | (k', v) :: rest, k => if k' = k then v else get rest k

/-- Whether `k` is a key of the map. -/
def hasKey : State → String → Bool
  | [], _ => false
  | (k', _) :: rest, k => if k' = k then true else hasKey rest k

/-- Comma-ok map read `v, ok := m[k]`: `none` when `k` is absent. -/
def lookup : State → String → Option Value
  | [], _ => none
  | (k', v) :: rest, k => if k' = k then some v else lookup rest k

/-- Map assignment `m[k] = v`. -/
def set : State → String → Value → State
  | [], k, v => [(k, v)]
  | (k', v') :: rest, k, v =>
    if k' = k then (k, v) :: rest else (k', v') :: set rest k v

/-- The keys of the map, in representation order. -/
def keys (m : State) : List String := m.map Prod.fst

end State

/-- Type assertion `x.(string)`: `none` stands for the run-time panic. -/
def Value.assertString : Value → Option String
  | Value.str s => some s
  | _ => none

/-! ## String helpers of the Go standard library -/

/-- Cuts a character list at every occurrence of `sep`; the pieces between separators,
empty pieces included. -/
def splitChars (sep : Char) : List Char → List (List Char)
  | [] => [[]]
  | c :: cs =>
    if c = sep then [] :: splitChars sep cs
    else
      match splitChars sep cs with
      | [] => [[c]]
      | seg :: segs => (c :: seg) :: segs

/-- Glues pieces back together with `sep` between consecutive pieces, as Go's
`strings.Join` does. -/
def joinChars (sep : Char) : List (List Char) → List Char
  | [] => []
  | [seg] => seg
  | seg :: next :: segs => seg ++ sep :: joinChars sep (next :: segs)

namespace strings

/-- Go `strings.Split(s, sep)` for a one-character separator. -/
def Split (s : String) (sep : Char) : List String :=
  (splitChars sep s.data).map String.mk

/-- Go `strings.HasPrefix(s, pre)`. -/
def HasPrefix (s pre : String) : Bool := pre.data.isPrefixOf s.data

/-- Go `strings.Contains(s, substr)`. -/
def Contains (s substr : String) : Bool :=
  s.data.tails.any (fun t => substr.data.isPrefixOf t)

end strings

/-! ## The provider client -/

/-- The part of `azure.Environment` that identifies the active cloud. -/
structure Environment where
  Name : String
  StorageEndpointSuffix : String
  deriving DecidableEq, Repr

/-- A subscription entity as returned by the listing API. Pointer-typed fields of the SDK
struct are options; `State` and `SpendingLimit` are string-kinded enums held by value. -/
structure SubscriptionPolicies where
  LocationPlacementID : Option String
  QuotaID : Option String
  SpendingLimit : String
  deriving DecidableEq, Repr

structure Subscription where
  ID : Option String
  SubscriptionID : Option String
  TenantID : Option String
  DisplayName : Option String
  State : String
  SubscriptionPolicies : Option SubscriptionPolicies
  Tags : List (String × Option String)
  deriving DecidableEq, Repr

/-- The iterator handed back by `ListComplete`, as the trace of what it will deliver: each
entry is the value read by `Value()` at that position together with the outcome of the
`Next()` call made while standing on it (`none`: the advance succeeds). `NotDone()` holds
while entries remain. -/
abbrev ListResultIterator := List (Subscription × Option String)

/-- The provider-wide `clients.Client`, restricted to what the two files read from it. -/
structure Client where
  Environment : Environment
  TenantId : String
  ListComplete : Except String ListResultIterator

/-- The `meta interface{}` argument: either a fully built `*clients.Client`, or any other
value, on which `meta.(*clients.Client)` panics. -/
inductive Meta where
  | client (c : Client)
  | other

/-- Type assertion `meta.(*clients.Client)`. -/
def Meta.assertClient : Meta → Option Client
  | Meta.client c => some c
  | Meta.other => none

/-! ## storage_share_resource_migration.go -/

/-- Upgrade of a storage share state from schema V0 to V1. -/
def ResourceStorageShareStateUpgradeV0ToV1 (rawState : State) (_meta : Meta) : Run State :=
  match (rawState.get "name").assertString with
  | none => Run.panic
  | some shareName =>
    match (rawState.get "resource_group_name").assertString with
    | none => Run.panic
    | some resourceGroup =>
      match (rawState.get "storage_account_name").assertString with
      | none => Run.panic
      | some accountName =>
        match (rawState.get "id").assertString with
        | none => Run.panic
        | some _id =>
          let newResourceID := shareName ++ "/" ++ resourceGroup ++ "/" ++ accountName
          Run.returned (rawState.set "id" (Value.str newResourceID)) none

/-- Upgrade of a storage share state from schema V1 to V2. `getResourceID env account share`
stands for `shares.NewWithEnvironment(env).GetResourceID(account, share)` of the storage
SDK. -/
def ResourceStorageShareStateUpgradeV1ToV2
    (getResourceID : Environment → String → String → String)
    (rawState : State) (meta : Meta) : Run State :=
  match (rawState.get "id").assertString with
  | none => Run.panic
  | some id =>
    let parsedId := strings.Split id '/'
    if parsedId.length != 3 then
      Run.returned rawState
        (some ("Expected 3 segments in the ID but got " ++ toString parsedId.length))
    else
      let shareName := parsedId.getD 0 ""
      let accountName := parsedId.getD 2 ""
      match meta.assertClient with
      | none => Run.panic
      | some c =>
        let newResourceId := getResourceID c.Environment accountName shareName
        Run.returned (rawState.set "id" (Value.str newResourceId)) none

/-! ## data_source_subscriptions.go -/

/-- The `*schema.ResourceData` of the data source: the three configured criteria as
`d.Get` reports them (the empty string when unset), and the attributes the read writes
(`d.SetId`, `d.Set("subscriptions", ...)`; `none` while `subscriptions` has not been set). -/
structure ResourceData where
  displayNamePrefix : String
  displayNameContains : String
  exactMatch : String
  Id : String
  subscriptions : Option (List State)
  deriving DecidableEq, Repr

/-- Lines 110-134 of the loop body: the flat record built from the value under the
cursor, before `tags` is added. -/
def flattenSubscription (val : Subscription) : State :=
  let s : State := []
  let s := match val.ID with
    | some v => s.set "id" (Value.str v)
    | none => s
  let s := match val.SubscriptionID with
    | some v => s.set "subscription_id" (Value.str v)
    | none => s
  let s := match val.TenantID with
    | some v => s.set "tenant_id" (Value.str v)
    | none => s
  let s := match val.DisplayName with
    | some v => s.set "display_name" (Value.str v)
    | none => s
  let s := s.set "state" (Value.str val.State)
  match val.SubscriptionPolicies with
  | some policies =>
    let s := match policies.LocationPlacementID with
      | some v => s.set "location_placement_id" (Value.str v)
      | none => s
    let s := match policies.QuotaID with
      | some v => s.set "quota_id" (Value.str v)
      | none => s
    s.set "spending_limit" (Value.str policies.SpendingLimit)
  | none => s

/-- Lines 140-162 of the loop body: `some true` when control falls through to the append,
`some false` when a `continue` is taken, `none` when `s["display_name"].(string)` panics.
`displayNamePrefix` and `displayNameContains` are the already lower-cased criteria. -/
def displayNameFilter (toLower : String → String)
    (displayNamePrefix displayNameContains exactMatch : String) (s : State) : Option Bool :=
  if exactMatch != "" then
    match (s.get "display_name").assertString with
    | none => none
    | some dn => if exactMatch != dn then some false else some true
  else
    let afterPrefix : Option Bool :=
      if displayNamePrefix != "" then
        match (s.get "display_name").assertString with
        | none => none
        | some dn =>
          if !strings.HasPrefix (toLower dn) displayNamePrefix then some false else some true
      else some true
    match afterPrefix with
    | none => none
    | some false => some false
    | some true =>
      if displayNameContains != "" then
        match (s.get "display_name").assertString with
        | none => none
        | some dn =>
          if !strings.Contains (toLower dn) displayNameContains then some false
          else some true
      else some true

/-- The `for results.NotDone()` loop of lines 107-167, started with `subscriptions`
holding `acc`. A failing `results.Next()` returns the error at once. -/
def subscriptionsLoop (toLower : String → String)
    (tagsFlatten : List (String × Option String) → Value)
    (displayNamePrefix displayNameContains exactMatch : String) :
    ListResultIterator → List State → Run (List State)
  | [], acc => Run.returned acc none
  | (val, next) :: rest, acc =>
    let s := flattenSubscription val
    match next with
    | some err =>
      Run.returned acc (some ("Error going to next subscriptions value: " ++ err))
    | none =>
      match displayNameFilter toLower displayNamePrefix displayNameContains exactMatch s with
      | none => Run.panic
      | some false =>
        subscriptionsLoop toLower tagsFlatten displayNamePrefix displayNameContains
          exactMatch rest acc
      | some true =>
        subscriptionsLoop toLower tagsFlatten displayNamePrefix displayNameContains
          exactMatch rest (acc ++ [s.set "tags" (tagsFlatten val.Tags)])

/-- The read function of the subscriptions data source. `toLower` is Go's
`strings.ToLower`, `tagsFlatten` the provider's `tags.Flatten`. The returned
`ResourceData` is `d` as the call leaves it; `d.Set` of a list of string-valued records is
taken to succeed. -/
def dataSourceSubscriptionsRead (toLower : String → String)
    (tagsFlatten : List (String × Option String) → Value)
    (d : ResourceData) (meta : Meta) : Run ResourceData :=
  match meta.assertClient with
  | none => Run.panic
  | some armClient =>
    let displayNamePrefix := toLower d.displayNamePrefix
    let displayNameContains := toLower d.displayNameContains
    let exactMatch := d.exactMatch
    match armClient.ListComplete with
    | Except.error err => Run.returned d (some ("Error listing subscriptions: " ++ err))
    | Except.ok results =>
      match subscriptionsLoop toLower tagsFlatten displayNamePrefix displayNameContains
          exactMatch results [] with
      | Run.panic => Run.panic
      | Run.returned _ (some err) => Run.returned d (some err)
      | Run.returned subscriptions none =>
        Run.returned
          { d with Id := "subscriptions-" ++ armClient.TenantId,
                   subscriptions := some subscriptions } none

/-- The record `dataSourceSubscriptionsRead` appends for a matching entity. -/
def subscriptionRecord (tagsFlatten : List (String × Option String) → Value)
    (val : Subscription) : State :=
  (flattenSubscription val).set "tags" (tagsFlatten val.Tags)

/-! ## Statements of the specification and example data -/

/-- The resource identifier the storage SDK builds for a file share:
`https://<account>.file.<endpoint suffix>/<share>`. -/
def sdkGetResourceID (env : Environment) (accountName shareName : String) : String :=
  "https://" ++ accountName ++ ".file." ++ env.StorageEndpointSuffix ++ "/" ++ shareName

/-- The public cloud. -/
def publicCloud : Environment :=
  { Name := "AzurePublicCloud", StorageEndpointSuffix := "core.windows.net" }

/-- A client of the public cloud whose listing is empty. -/
def publicClient : Client :=
  { Environment := publicCloud, TenantId := "t-0", ListComplete := Except.ok [] }

/-- A V0 state with the declared fields and one field the schema does not declare. -/
def sampleV0 : State :=
  [("id", Value.str "legacy-id"), ("name", Value.str "sh1"),
   ("resource_group_name", Value.str "rg1"), ("storage_account_name", Value.str "acct1"),
   ("quota", Value.int 5120), ("url", Value.str "https://acct1.file.core.windows.net/sh1"),
   ("extra", Value.bool true)]

/-- A V1 state as the first step leaves it. -/
def sampleV1 : State :=
  [("id", Value.str "sh1/rg1/acct1"), ("name", Value.str "sh1"),
   ("resource_group_name", Value.str "rg1"), ("storage_account_name", Value.str "acct1"),
   ("quota", Value.int 5120), ("extra", Value.bool true)]

/-- The matching rule for an empty `exact_match`, in the words of the specification:
(`display_name_prefix` is empty or the lower-cased display name starts with the lower-cased
prefix) and (`display_name_contains` is empty or the lower-cased display name contains the
lower-cased substring). -/
def criteriaMatch (toLower : String → String) (namePrefix nameContains displayName : String) :
    Bool :=
  (namePrefix == "" || strings.HasPrefix (toLower displayName) (toLower namePrefix))
    && (nameContains == "" || strings.Contains (toLower displayName) (toLower nameContains))

/-- Lower-casing of the ASCII letters, which is what Go's `strings.ToLower` does on ASCII
strings. -/
def asciiToLower (s : String) : String := String.mk (s.data.map Char.toLower)

/-- A tag flattener for the examples: keeps the tags that have a value. -/
def keepSetTags (tags : List (String × Option String)) : Value :=
  Value.strMap (tags.filterMap (fun kv => kv.2.map (fun v => (kv.1, v))))

/-- An enabled subscription with the given display name and no policies. -/
def namedSubscription (name : String) : Subscription :=
  { ID := some ("/subscriptions/" ++ name), SubscriptionID := some name,
    TenantID := some "t-0", DisplayName := some name, State := "Enabled",
    SubscriptionPolicies := none, Tags := [("env", some name), ("unset", none)] }

/-- A subscription entity in which nothing is set: every pointer field is nil, the state
is the zero value, and the policies are present but empty. -/
def blankSubscription : Subscription :=
  { ID := none, SubscriptionID := none, TenantID := none, DisplayName := none, State := "",
    SubscriptionPolicies :=
      some { LocationPlacementID := none, QuotaID := none, SpendingLimit := "" },
    Tags := [] }

/-- A listing of four subscriptions, all advances succeeding. -/
def prodListing : ListResultIterator :=
  [(namedSubscription "Prod", none), (namedSubscription "prod", none),
   (namedSubscription "Prod-1", none), (namedSubscription "Prod", none)]

/-- A listing of two subscriptions, all advances succeeding. -/
def devListing : ListResultIterator :=
  [(namedSubscription "Dev-1", none), (namedSubscription "Staging", none)]

/-- A client whose listing delivers the given trace. -/
def listingClient (src : ListResultIterator) : Client :=
  { Environment := publicCloud, TenantId := "t-0", ListComplete := Except.ok src }

/-- A listing whose second advance fails: "Prod" is read and advanced past, then the
cursor stands on an entity without display name and `Next()` fails. -/
def failingListing : ListResultIterator :=
  [(namedSubscription "Prod", none),
   ({ namedSubscription "ghost" with DisplayName := none }, some "timeout"),
   (namedSubscription "Prod", none)]

/-- The value an entity carries for a field of the flat record, in the words of the
specification: a pointer-typed field is carried when it is set, and the two enums held by
value (`state`, and `spending_limit` inside the policies) are carried when they are not the
zero value, which is how the SDK struct represents an enum the API did not send. -/
def carriedField (val : Subscription) (field : String) : Option String :=
  if field = "id" then val.ID
  else if field = "subscription_id" then val.SubscriptionID
  else if field = "tenant_id" then val.TenantID
  else if field = "display_name" then val.DisplayName
  else if field = "state" then (if val.State = "" then none else some val.State)
  else if field = "location_placement_id" then
    val.SubscriptionPolicies.bind (fun p => p.LocationPlacementID)
  else if field = "quota_id" then val.SubscriptionPolicies.bind (fun p => p.QuotaID)
  else if field = "spending_limit" then
    val.SubscriptionPolicies.bind
      (fun p => if p.SpendingLimit = "" then none else some p.SpendingLimit)
  else none

/-- The fields of the flat record other than `tags`. -/
def recordFields : List String :=
  ["id", "subscription_id", "tenant_id", "display_name", "state",
   "location_placement_id", "quota_id", "spending_limit"]

/-! ## Lemmas on maps -/

theorem State.get_set_self (m : State) (k : String) (v : Value) :
    (m.set k v).get k = v := by
  induction m with
  | nil => simp [State.set, State.get]
  | cons kv rest ih =>
    obtain ⟨k', v'⟩ := kv
    by_cases h : k' = k
    · simp [State.set, State.get, h]
    · simp [State.set, State.get, h, ih]

theorem State.get_set_ne (m : State) (k k' : String) (v : Value) (hk : k' ≠ k) :
    (m.set k v).get k' = m.get k' := by
  induction m with
  | nil => simp [State.set, State.get, Ne.symm hk]
  | cons kv rest ih =>
    obtain ⟨k₀, v₀⟩ := kv
    by_cases h : k₀ = k
    · subst h
      simp [State.set, State.get, Ne.symm hk]
    · by_cases h' : k₀ = k'
      · subst h'
        simp [State.set, State.get, h]
      · simp [State.set, State.get, h, h', ih]

theorem State.hasKey_of_get_str (m : State) (k s : String) (h : m.get k = Value.str s) :
    m.hasKey k = true := by
  induction m with
  | nil => simp [State.get] at h
  | cons kv rest ih =>
    obtain ⟨k', v'⟩ := kv
    by_cases hk : k' = k
    · simp [State.hasKey, hk]
    · simp only [State.get, hk, if_false] at h
      simp [State.hasKey, hk, ih h]

theorem State.keys_set_of_hasKey (m : State) (k : String) (v : Value)
    (h : m.hasKey k = true) : (m.set k v).keys = m.keys := by
  induction m with
  | nil => simp [State.hasKey] at h
  | cons kv rest ih =>
    obtain ⟨k', v'⟩ := kv
    by_cases hk : k' = k
    · simp [State.set, State.keys, hk]
    · simp only [State.hasKey, hk, if_false] at h
      have := ih h
      simp only [State.keys] at this
      simp [State.set, State.keys, hk, this]

theorem State.hasKey_eq_of_keys_eq (m m' : State) (h : m'.keys = m.keys) (k : String) :
    m'.hasKey k = m.hasKey k := by
  induction m generalizing m' with
  | nil =>
    cases m' with
    | nil => rfl
    | cons kv rest => simp [State.keys] at h
  | cons kv rest ih =>
    cases m' with
    | nil => simp [State.keys] at h
    | cons kv' rest' =>
      obtain ⟨k₁, v₁⟩ := kv
      obtain ⟨k₂, v₂⟩ := kv'
      simp only [State.keys, List.map_cons, List.cons.injEq] at h
      obtain ⟨h1, h2⟩ := h
      subst h1
      simp [State.hasKey, ih rest' h2]

theorem Value.assertString_eq_some (v : Value) (s : String) :
    v.assertString = some s ↔ v = Value.str s := by
  cases v <;> simp [Value.assertString]

theorem Value.assertString_eq_none (v : Value) (h : ∀ s, v ≠ Value.str s) :
    v.assertString = none := by
  cases v <;> simp [Value.assertString] at *

/-! ## Lemmas on splitting -/

theorem splitChars_ne_nil (sep : Char) (l : List Char) : splitChars sep l ≠ [] := by
  cases l with
  | nil => simp [splitChars]
  | cons c cs =>
    by_cases h : c = sep
    · simp [splitChars, h]
    · simp only [splitChars, h, if_false]
      cases splitChars sep cs <;> simp

theorem splitChars_length (sep : Char) (l : List Char) :
    (splitChars sep l).length = l.count sep + 1 := by
  induction l with
  | nil => simp [splitChars]
  | cons c cs ih =>
    by_cases h : c = sep
    · simp [splitChars, h, ih]
    · have hne := splitChars_ne_nil sep cs
      simp only [splitChars, h, if_false]
      cases hs : splitChars sep cs with
      | nil => exact absurd hs hne
      | cons seg segs =>
        rw [hs] at ih
        simp only [List.length_cons] at ih ⊢
        rw [List.count_cons_of_ne (Ne.symm h)]
        omega

theorem splitChars_of_not_mem (sep : Char) (l : List Char) (h : sep ∉ l) :
    splitChars sep l = [l] := by
  induction l with
  | nil => simp [splitChars]
  | cons c cs ih =>
    simp only [List.mem_cons, not_or] at h
    have hc : ¬ c = sep := fun e => h.1 e.symm
    simp [splitChars, hc, ih h.2]

theorem splitChars_append_sep (sep : Char) (a b : List Char) (h : sep ∉ a) :
    splitChars sep (a ++ sep :: b) = a :: splitChars sep b := by
  induction a with
  | nil => simp [splitChars]
  | cons c cs ih =>
    simp only [List.mem_cons, not_or] at h
    have hc : ¬ c = sep := fun e => h.1 e.symm
    simp [splitChars, hc, ih h.2]

/-- Joining the pieces of a split with the separator gives back the input. -/
theorem joinChars_splitChars (sep : Char) (l : List Char) :
    joinChars sep (splitChars sep l) = l := by
  induction l with
  | nil => simp [splitChars, joinChars]
  | cons c cs ih =>
    have hne := splitChars_ne_nil sep cs
    by_cases h : c = sep
    · simp only [splitChars, h, if_true]
      cases hs : splitChars sep cs with
      | nil => exact absurd hs hne
      | cons seg segs =>
        rw [hs] at ih
        simp [joinChars, ih]
    · simp only [splitChars, h, if_false]
      cases hs : splitChars sep cs with
      | nil => exact absurd hs hne
      | cons seg segs =>
        rw [hs] at ih
        cases segs with
        | nil =>
          simp only [joinChars] at ih ⊢
          rw [ih]
        | cons next more =>
          simp only [joinChars, List.cons_append] at ih ⊢
          rw [ih]

/-- No piece of a split contains the separator. -/
theorem splitChars_no_sep (sep : Char) (l : List Char) :
    ∀ seg ∈ splitChars sep l, sep ∉ seg := by
  induction l with
  | nil => simp [splitChars]
  | cons c cs ih =>
    by_cases h : c = sep
    · intro seg hseg
      simp only [splitChars, h, if_true, List.mem_cons] at hseg
      rcases hseg with rfl | hseg
      · simp
      · exact ih seg hseg
    · intro seg hseg
      simp only [splitChars, h, if_false] at hseg
      cases hs : splitChars sep cs with
      | nil => exact absurd hs (splitChars_ne_nil sep cs)
      | cons first more =>
        rw [hs] at hseg ih
        simp only [List.mem_cons] at hseg
        rcases hseg with rfl | hseg
        · have hfirst := ih first (List.mem_cons_self _ _)
          simp only [List.mem_cons, not_or]
          exact ⟨fun e => h e.symm, hfirst⟩
        · exact ih seg (List.mem_cons_of_mem _ hseg)

/-- Go `strings.Contains` is the contiguous-sublist relation on the characters. -/
theorem strings.Contains_iff_infix (s substr : String) :
    strings.Contains s substr = true ↔ substr.data <:+: s.data := by
  unfold strings.Contains
  rw [List.any_eq_true]
  constructor
  · rintro ⟨t, ht, hpre⟩
    have hsuf := (List.mem_tails _ _).1 ht
    obtain ⟨r, hr⟩ := List.isPrefixOf_iff_prefix.1 hpre
    obtain ⟨q, hq⟩ := hsuf
    exact ⟨q, r, by rw [← hq, ← hr, List.append_assoc]⟩
  · intro hinf
    obtain ⟨t, hp, hsuf⟩ := List.infix_iff_prefix_suffix.1 hinf
    exact ⟨t, (List.mem_tails _ _).2 hsuf, List.isPrefixOf_iff_prefix.2 hp⟩

theorem composite_id_data (a b c : String) :
    (a ++ "/" ++ b ++ "/" ++ c).data = a.data ++ '/' :: (b.data ++ '/' :: c.data) := by
  simp [String.data_append]

theorem Split_composite_length (a b c : String) :
    (strings.Split (a ++ "/" ++ b ++ "/" ++ c) '/').length
      = a.data.count '/' + b.data.count '/' + c.data.count '/' + 3 := by
  simp only [strings.Split, List.length_map, splitChars_length, composite_id_data,
    List.count_append, List.count_cons_self]
  omega

theorem Split_composite_of_no_slash (a b c : String)
    (ha : '/' ∉ a.data) (hb : '/' ∉ b.data) (hc : '/' ∉ c.data) :
    strings.Split (a ++ "/" ++ b ++ "/" ++ c) '/' = [a, b, c] := by
  simp only [strings.Split, composite_id_data]
  rw [splitChars_append_sep _ _ _ ha, splitChars_append_sep _ _ _ hb,
    splitChars_of_not_mem _ _ hc]
  rfl

/-! ## Storage share migration: theorems -/

/-- C1: on a V0 state whose `name`, `resource_group_name`, `storage_account_name` and `id`
entries are strings, `ResourceStorageShareStateUpgradeV0ToV1` returns with a nil error the
input state with `id` overwritten, and the new `id` is
`name + "/" + resource_group_name + "/" + storage_account_name` whatever the old `id` was
(the fields need not even be non-empty). -/
theorem upgradeV0ToV1_builds_composite_id (rawState : State) (meta : Meta)
    (name rg acct oldId : String)
    (hn : rawState.get "name" = Value.str name)
    (hr : rawState.get "resource_group_name" = Value.str rg)
    (ha : rawState.get "storage_account_name" = Value.str acct)
    (hi : rawState.get "id" = Value.str oldId) :
    ∃ st, ResourceStorageShareStateUpgradeV0ToV1 rawState meta = Run.returned st none
      ∧ st = rawState.set "id" (Value.str (name ++ "/" ++ rg ++ "/" ++ acct))
      ∧ st.get "id" = Value.str (name ++ "/" ++ rg ++ "/" ++ acct) := by
  refine ⟨_, ?_, rfl, State.get_set_self _ _ _⟩
  simp [ResourceStorageShareStateUpgradeV0ToV1, hn, hr, ha, hi, Value.assertString]

/-- C1 at `sampleV0`: the legacy id is replaced by `sh1/rg1/acct1`. -/
theorem upgradeV0ToV1_builds_composite_id_witness :
    ∃ st, ResourceStorageShareStateUpgradeV0ToV1 sampleV0 Meta.other = Run.returned st none
      ∧ st = sampleV0.set "id" (Value.str ("sh1" ++ "/" ++ "rg1" ++ "/" ++ "acct1"))
      ∧ st.get "id" = Value.str ("sh1" ++ "/" ++ "rg1" ++ "/" ++ "acct1") :=
  upgradeV0ToV1_builds_composite_id sampleV0 Meta.other "sh1" "rg1" "acct1" "legacy-id"
    (by decide) (by decide) (by decide) (by decide)

/-- C2: on a V1 state whose `id` splits on "/" into exactly the three segments
`[s1, s2, s3]`, with the client of the active environment as `meta`,
`ResourceStorageShareStateUpgradeV1ToV2` returns with a nil error the input state with `id`
set to `getResourceID env s3 s1`; a second state whose `id` differs only in the middle
segment gets the very same new `id`. -/
theorem upgradeV1ToV2_three_segments
    (getResourceID : Environment → String → String → String)
    (rawState rawState' : State) (c : Client) (id id' s1 s2 s2' s3 : String)
    (hid : rawState.get "id" = Value.str id)
    (hsplit : strings.Split id '/' = [s1, s2, s3])
    (hid' : rawState'.get "id" = Value.str id')
    (hsplit' : strings.Split id' '/' = [s1, s2', s3]) :
    ResourceStorageShareStateUpgradeV1ToV2 getResourceID rawState (Meta.client c)
        = Run.returned
            (rawState.set "id" (Value.str (getResourceID c.Environment s3 s1))) none
      ∧ (rawState.set "id" (Value.str (getResourceID c.Environment s3 s1))).get "id"
        = Value.str (getResourceID c.Environment s3 s1)
      ∧ ResourceStorageShareStateUpgradeV1ToV2 getResourceID rawState' (Meta.client c)
        = Run.returned
            (rawState'.set "id" (Value.str (getResourceID c.Environment s3 s1))) none := by
  refine ⟨?_, State.get_set_self _ _ _, ?_⟩
  · simp [ResourceStorageShareStateUpgradeV1ToV2, hid, hsplit, Value.assertString,
      Meta.assertClient]
  · simp [ResourceStorageShareStateUpgradeV1ToV2, hid', hsplit', Value.assertString,
      Meta.assertClient]

/-- C2 at the id `sh1/rg1/acct1` (and `sh1/other-rg/acct1`): the new id is
`getResourceID env "acct1" "sh1"`. -/
theorem upgradeV1ToV2_three_segments_witness :
    ResourceStorageShareStateUpgradeV1ToV2 sdkGetResourceID sampleV1 (Meta.client publicClient)
        = Run.returned
            (sampleV1.set "id" (Value.str (sdkGetResourceID publicCloud "acct1" "sh1"))) none
      ∧ (sampleV1.set "id" (Value.str (sdkGetResourceID publicCloud "acct1" "sh1"))).get "id"
        = Value.str (sdkGetResourceID publicCloud "acct1" "sh1")
      ∧ ResourceStorageShareStateUpgradeV1ToV2 sdkGetResourceID
          [("id", Value.str "sh1/other-rg/acct1")] (Meta.client publicClient)
        = Run.returned
            (State.set [("id", Value.str "sh1/other-rg/acct1")] "id"
              (Value.str (sdkGetResourceID publicCloud "acct1" "sh1"))) none :=
  upgradeV1ToV2_three_segments sdkGetResourceID sampleV1
    [("id", Value.str "sh1/other-rg/acct1")] publicClient
    "sh1/rg1/acct1" "sh1/other-rg/acct1" "sh1" "rg1" "other-rg" "acct1"
    (by decide) (by decide) (by decide) (by decide)

/-- C3: on a V1 state whose string `id` splits on "/" into a number of segments other than
3, `ResourceStorageShareStateUpgradeV1ToV2` returns the input state itself together with
the error "Expected 3 segments in the ID but got n"; this holds for every
identifier-construction function and every `meta` (a client or not), neither of which is
consulted. -/
theorem upgradeV1ToV2_wrong_segment_count
    (getResourceID : Environment → String → String → String)
    (rawState : State) (meta : Meta) (id : String)
    (hid : rawState.get "id" = Value.str id)
    (hlen : (strings.Split id '/').length ≠ 3) :
    ResourceStorageShareStateUpgradeV1ToV2 getResourceID rawState meta
      = Run.returned rawState
          (some ("Expected 3 segments in the ID but got "
            ++ toString (strings.Split id '/').length)) := by
  simp [ResourceStorageShareStateUpgradeV1ToV2, hid, hlen, Value.assertString]

/-- C3 at ids with no slash, one slash and three slashes. -/
theorem upgradeV1ToV2_wrong_segment_count_witness :
    ResourceStorageShareStateUpgradeV1ToV2 sdkGetResourceID
        [("id", Value.str "share"), ("quota", Value.int 1)] Meta.other
      = Run.returned [("id", Value.str "share"), ("quota", Value.int 1)]
          (some ("Expected 3 segments in the ID but got "
            ++ toString (strings.Split "share" '/').length))
    ∧ ResourceStorageShareStateUpgradeV1ToV2 sdkGetResourceID
        [("id", Value.str "share/rg")] (Meta.client publicClient)
      = Run.returned [("id", Value.str "share/rg")]
          (some ("Expected 3 segments in the ID but got "
            ++ toString (strings.Split "share/rg" '/').length))
    ∧ ResourceStorageShareStateUpgradeV1ToV2 sdkGetResourceID
        [("id", Value.str "a/b/c/d")] (Meta.client publicClient)
      = Run.returned [("id", Value.str "a/b/c/d")]
          (some ("Expected 3 segments in the ID but got "
            ++ toString (strings.Split "a/b/c/d" '/').length)) :=
  ⟨upgradeV1ToV2_wrong_segment_count sdkGetResourceID
      [("id", Value.str "share"), ("quota", Value.int 1)] Meta.other "share"
      (by decide) (by decide),
   upgradeV1ToV2_wrong_segment_count sdkGetResourceID
      [("id", Value.str "share/rg")] (Meta.client publicClient) "share/rg"
      (by decide) (by decide),
   upgradeV1ToV2_wrong_segment_count sdkGetResourceID
      [("id", Value.str "a/b/c/d")] (Meta.client publicClient) "a/b/c/d"
      (by decide) (by decide)⟩

/-- A successful `ResourceStorageShareStateUpgradeV0ToV1` returns the input with `id`
overwritten, and `id` was already a key. -/
theorem upgradeV0ToV1_success_shape (rawState st : State) (meta : Meta)
    (h : ResourceStorageShareStateUpgradeV0ToV1 rawState meta = Run.returned st none) :
    ∃ v, st = rawState.set "id" v ∧ rawState.hasKey "id" = true := by
  unfold ResourceStorageShareStateUpgradeV0ToV1 at h
  cases hn : (rawState.get "name").assertString with
  | none => simp [hn] at h
  | some name =>
    cases hr : (rawState.get "resource_group_name").assertString with
    | none => simp [hn, hr] at h
    | some rg =>
      cases ha : (rawState.get "storage_account_name").assertString with
      | none => simp [hn, hr, ha] at h
      | some acct =>
        cases hi : (rawState.get "id").assertString with
        | none => simp [hn, hr, ha, hi] at h
        | some oldId =>
          simp only [hn, hr, ha, hi, Run.returned.injEq, and_true] at h
          exact ⟨_, h.symm,
            State.hasKey_of_get_str _ _ _ ((Value.assertString_eq_some _ _).1 hi)⟩

/-- A successful `ResourceStorageShareStateUpgradeV1ToV2` returns the input with `id`
overwritten, and `id` was already a key. -/
theorem upgradeV1ToV2_success_shape
    (getResourceID : Environment → String → String → String)
    (rawState st : State) (meta : Meta)
    (h : ResourceStorageShareStateUpgradeV1ToV2 getResourceID rawState meta
      = Run.returned st none) :
    ∃ v, st = rawState.set "id" v ∧ rawState.hasKey "id" = true := by
  unfold ResourceStorageShareStateUpgradeV1ToV2 at h
  cases hi : (rawState.get "id").assertString with
  | none => simp [hi] at h
  | some id =>
    simp only [hi] at h
    by_cases hlen : (strings.Split id '/').length = 3
    · cases hm : meta.assertClient with
      | none => simp [hlen, hm] at h
      | some c =>
        simp only [hlen, hm, bne_self_eq_false, Bool.false_eq_true, if_false,
          Run.returned.injEq, and_true] at h
        exact ⟨_, h.symm,
          State.hasKey_of_get_str _ _ _ ((Value.assertString_eq_some _ _).1 hi)⟩
    · simp [hlen] at h

/-- `ResourceStorageShareStateUpgradeV0ToV1` never returns a non-nil error. -/
theorem upgradeV0ToV1_returns_no_error (rawState st : State) (meta : Meta) (err : String) :
    ResourceStorageShareStateUpgradeV0ToV1 rawState meta ≠ Run.returned st (some err) := by
  intro h
  unfold ResourceStorageShareStateUpgradeV0ToV1 at h
  cases hn : (rawState.get "name").assertString with
  | none => simp [hn] at h
  | some name =>
    cases hr : (rawState.get "resource_group_name").assertString with
    | none => simp [hn, hr] at h
    | some rg =>
      cases ha : (rawState.get "storage_account_name").assertString with
      | none => simp [hn, hr, ha] at h
      | some acct =>
        cases hi : (rawState.get "id").assertString with
        | none => simp [hn, hr, ha, hi] at h
        | some oldId => simp [hn, hr, ha, hi] at h

/-- The only error `ResourceStorageShareStateUpgradeV1ToV2` returns is the segment-count
error: a returned non-nil error comes with the unchanged input state, whose `id` is a
string that splits into a number of segments other than 3, and names that number. -/
theorem upgradeV1ToV2_error_is_segment_count
    (getResourceID : Environment → String → String → String)
    (rawState st : State) (meta : Meta) (err : String)
    (h : ResourceStorageShareStateUpgradeV1ToV2 getResourceID rawState meta
      = Run.returned st (some err)) :
    st = rawState ∧ ∃ id, rawState.get "id" = Value.str id
      ∧ (strings.Split id '/').length ≠ 3
      ∧ err = "Expected 3 segments in the ID but got "
          ++ toString (strings.Split id '/').length := by
  unfold ResourceStorageShareStateUpgradeV1ToV2 at h
  cases hi : (rawState.get "id").assertString with
  | none => simp [hi] at h
  | some id =>
    simp only [hi] at h
    by_cases hlen : (strings.Split id '/').length = 3
    · cases hm : meta.assertClient with
      | none => simp [hlen, hm] at h
      | some c => simp [hlen, hm] at h
    · simp only [bne_iff_ne, ne_eq, hlen, not_false_eq_true, if_true, Run.returned.injEq,
        Option.some.injEq] at h
      exact ⟨h.1.symm, id, (Value.assertString_eq_some _ _).1 hi, hlen, h.2.symm⟩

/-- C4: whenever a migration step (`ResourceStorageShareStateUpgradeV0ToV1` or
`ResourceStorageShareStateUpgradeV1ToV2`) returns a state with a nil error, the returned
state has exactly the keys of the input (so every key is present in one iff in the other)
and the input's value at every key other than `id`, declared by the schema or not. -/
theorem upgrade_step_frame
    (getResourceID : Environment → String → String → String)
    (rawState st : State) (meta : Meta)
    (h : ResourceStorageShareStateUpgradeV0ToV1 rawState meta = Run.returned st none
      ∨ ResourceStorageShareStateUpgradeV1ToV2 getResourceID rawState meta
          = Run.returned st none) :
    st.keys = rawState.keys
      ∧ (∀ k, st.hasKey k = rawState.hasKey k)
      ∧ (∀ k, k ≠ "id" → st.get k = rawState.get k) := by
  have hshape : ∃ v, st = rawState.set "id" v ∧ rawState.hasKey "id" = true := by
    rcases h with h | h
    · exact upgradeV0ToV1_success_shape rawState st meta h
    · exact upgradeV1ToV2_success_shape getResourceID rawState st meta h
  obtain ⟨v, rfl, hk⟩ := hshape
  have hkeys := State.keys_set_of_hasKey rawState "id" v hk
  exact ⟨hkeys, State.hasKey_eq_of_keys_eq _ _ hkeys,
    fun k hne => State.get_set_ne rawState "id" k v hne⟩

/-- C4 at `sampleV0`, which carries `quota`, `url` and the undeclared key `extra`. -/
theorem upgrade_step_frame_witness :
    (sampleV0.set "id" (Value.str "sh1/rg1/acct1")).keys = sampleV0.keys
      ∧ (∀ k, (sampleV0.set "id" (Value.str "sh1/rg1/acct1")).hasKey k = sampleV0.hasKey k)
      ∧ (∀ k, k ≠ "id" →
          (sampleV0.set "id" (Value.str "sh1/rg1/acct1")).get k = sampleV0.get k) :=
  upgrade_step_frame sdkGetResourceID sampleV0
    (sampleV0.set "id" (Value.str "sh1/rg1/acct1")) Meta.other (Or.inl (by decide))

/-- C9 fails as stated: on a V0 state without `name`, and on a V1 state whose `id` is a
number, the steps panic; no state and no error value is returned. -/
theorem upgrade_missing_field_panics_counterexample :
    ResourceStorageShareStateUpgradeV0ToV1
        [("id", Value.str "x"), ("resource_group_name", Value.str "rg1"),
         ("storage_account_name", Value.str "acct1")] (Meta.client publicClient)
      = Run.panic
    ∧ ResourceStorageShareStateUpgradeV1ToV2 sdkGetResourceID
        [("id", Value.int 7)] (Meta.client publicClient) = Run.panic
    ∧ ¬ (∃ st err, ResourceStorageShareStateUpgradeV0ToV1
        [("id", Value.str "x"), ("resource_group_name", Value.str "rg1"),
         ("storage_account_name", Value.str "acct1")] (Meta.client publicClient)
      = Run.returned st (some err)) := by
  refine ⟨by decide, by decide, ?_⟩
  rintro ⟨st, err, h⟩
  have hp : ResourceStorageShareStateUpgradeV0ToV1
      [("id", Value.str "x"), ("resource_group_name", Value.str "rg1"),
       ("storage_account_name", Value.str "acct1")] (Meta.client publicClient)
      = Run.panic := by decide
  rw [hp] at h
  cases h

/-- C9 as amended: when one of `name`, `resource_group_name`, `storage_account_name`, `id`
is absent or not a string, `ResourceStorageShareStateUpgradeV0ToV1` panics; when `id` is
absent or not a string, `ResourceStorageShareStateUpgradeV1ToV2` panics. Neither returns a
state or an error. -/
theorem upgrade_missing_field_panics
    (getResourceID : Environment → String → String → String)
    (rawState : State) (meta : Meta) :
    ((∃ k ∈ ["name", "resource_group_name", "storage_account_name", "id"],
        ∀ s, rawState.get k ≠ Value.str s) →
      ResourceStorageShareStateUpgradeV0ToV1 rawState meta = Run.panic)
    ∧ ((∀ s, rawState.get "id" ≠ Value.str s) →
      ResourceStorageShareStateUpgradeV1ToV2 getResourceID rawState meta = Run.panic) := by
  constructor
  · rintro ⟨k, hk, hbad⟩
    have hnone := Value.assertString_eq_none _ hbad
    unfold ResourceStorageShareStateUpgradeV0ToV1
    simp only [List.mem_cons, List.mem_singleton, List.mem_nil_iff, or_false] at hk
    cases hn : (rawState.get "name").assertString with
    | none => rfl
    | some name =>
      cases hr : (rawState.get "resource_group_name").assertString with
      | none => rfl
      | some rg =>
        cases ha : (rawState.get "storage_account_name").assertString with
        | none => rfl
        | some acct =>
          cases hi : (rawState.get "id").assertString with
          | none => rfl
          | some oldId =>
            rcases hk with rfl | rfl | rfl | rfl
            · rw [hn] at hnone; cases hnone
            · rw [hr] at hnone; cases hnone
            · rw [ha] at hnone; cases hnone
            · rw [hi] at hnone; cases hnone
  · intro hbad
    have hnone := Value.assertString_eq_none _ hbad
    simp [ResourceStorageShareStateUpgradeV1ToV2, hnone]

/-- C9 as amended, at a V0 state without `name` and a V1 state whose `id` is a number. -/
theorem upgrade_missing_field_panics_witness :
    ResourceStorageShareStateUpgradeV0ToV1
        [("id", Value.str "x"), ("resource_group_name", Value.str "rg1"),
         ("storage_account_name", Value.str "acct1")] Meta.other = Run.panic
    ∧ ResourceStorageShareStateUpgradeV1ToV2 sdkGetResourceID
        [("id", Value.int 7)] Meta.other = Run.panic :=
  ⟨(upgrade_missing_field_panics sdkGetResourceID
      [("id", Value.str "x"), ("resource_group_name", Value.str "rg1"),
       ("storage_account_name", Value.str "acct1")] Meta.other).1
      ⟨"name", by decide, by intro s; simp [State.get]⟩,
   (upgrade_missing_field_panics sdkGetResourceID [("id", Value.int 7)] Meta.other).2
      (by intro s; simp [State.get])⟩

/-- C10: on a V0 state with string `name`, `resource_group_name`, `storage_account_name`
and `id`, `ResourceStorageShareStateUpgradeV0ToV1` returns a V1 state `v1` with
`id = name/resource_group_name/storage_account_name`, and
`ResourceStorageShareStateUpgradeV1ToV2` applied to `v1` (with the provider client)
returns with a nil error if and only if none of the three fields contains "/". In that case
the final `id` is `getResourceID env storage_account_name name`; otherwise the second step
returns `v1` itself, `id` included, with the segment-count error for a count other than 3. -/
theorem upgrade_chain_V0_to_V2
    (getResourceID : Environment → String → String → String)
    (rawState : State) (meta0 : Meta) (c : Client) (name rg acct oldId : String)
    (hn : rawState.get "name" = Value.str name)
    (hr : rawState.get "resource_group_name" = Value.str rg)
    (ha : rawState.get "storage_account_name" = Value.str acct)
    (hi : rawState.get "id" = Value.str oldId) :
    ∃ v1, ResourceStorageShareStateUpgradeV0ToV1 rawState meta0 = Run.returned v1 none
      ∧ v1.get "id" = Value.str (name ++ "/" ++ rg ++ "/" ++ acct)
      ∧ ((∃ v2, ResourceStorageShareStateUpgradeV1ToV2 getResourceID v1 (Meta.client c)
              = Run.returned v2 none)
          ↔ ('/' ∉ name.data ∧ '/' ∉ rg.data ∧ '/' ∉ acct.data))
      ∧ (('/' ∉ name.data ∧ '/' ∉ rg.data ∧ '/' ∉ acct.data) →
          ResourceStorageShareStateUpgradeV1ToV2 getResourceID v1 (Meta.client c)
            = Run.returned
                (v1.set "id" (Value.str (getResourceID c.Environment acct name))) none
          ∧ (v1.set "id" (Value.str (getResourceID c.Environment acct name))).get "id"
            = Value.str (getResourceID c.Environment acct name))
      ∧ (¬ ('/' ∉ name.data ∧ '/' ∉ rg.data ∧ '/' ∉ acct.data) →
          ∃ n, n ≠ 3 ∧
            ResourceStorageShareStateUpgradeV1ToV2 getResourceID v1 (Meta.client c)
              = Run.returned v1
                  (some ("Expected 3 segments in the ID but got " ++ toString n))) := by
  have hv1 : (rawState.set "id" (Value.str (name ++ "/" ++ rg ++ "/" ++ acct))).get "id"
      = Value.str (name ++ "/" ++ rg ++ "/" ++ acct) := State.get_set_self _ _ _
  have hgood : ('/' ∉ name.data ∧ '/' ∉ rg.data ∧ '/' ∉ acct.data) →
      ResourceStorageShareStateUpgradeV1ToV2 getResourceID
          (rawState.set "id" (Value.str (name ++ "/" ++ rg ++ "/" ++ acct))) (Meta.client c)
        = Run.returned
            ((rawState.set "id" (Value.str (name ++ "/" ++ rg ++ "/" ++ acct))).set "id"
              (Value.str (getResourceID c.Environment acct name))) none := by
    rintro ⟨h1, h2, h3⟩
    have hsplit := Split_composite_of_no_slash name rg acct h1 h2 h3
    simp [ResourceStorageShareStateUpgradeV1ToV2, hv1, hsplit, Value.assertString,
      Meta.assertClient]
  have hbad : ¬ ('/' ∉ name.data ∧ '/' ∉ rg.data ∧ '/' ∉ acct.data) →
      (strings.Split (name ++ "/" ++ rg ++ "/" ++ acct) '/').length ≠ 3
      ∧ ResourceStorageShareStateUpgradeV1ToV2 getResourceID
          (rawState.set "id" (Value.str (name ++ "/" ++ rg ++ "/" ++ acct))) (Meta.client c)
        = Run.returned (rawState.set "id" (Value.str (name ++ "/" ++ rg ++ "/" ++ acct)))
            (some ("Expected 3 segments in the ID but got "
              ++ toString (strings.Split (name ++ "/" ++ rg ++ "/" ++ acct) '/').length)) := by
    intro hslash
    have hlen : (strings.Split (name ++ "/" ++ rg ++ "/" ++ acct) '/').length ≠ 3 := by
      rw [Split_composite_length]
      intro hsum
      apply hslash
      refine ⟨?_, ?_, ?_⟩ <;> rw [← List.count_eq_zero] <;> omega
    refine ⟨hlen, ?_⟩
    simp [ResourceStorageShareStateUpgradeV1ToV2, hv1, hlen, Value.assertString]
  refine ⟨rawState.set "id" (Value.str (name ++ "/" ++ rg ++ "/" ++ acct)), ?_, hv1, ?_, ?_, ?_⟩
  · simp [ResourceStorageShareStateUpgradeV0ToV1, hn, hr, ha, hi, Value.assertString]
  · constructor
    · rintro ⟨v2, hv2⟩
      by_contra hslash
      rw [(hbad hslash).2] at hv2
      simp at hv2
    · intro hno
      exact ⟨_, hgood hno⟩
  · intro hno
    exact ⟨hgood hno, State.get_set_self _ _ _⟩
  · intro hslash
    exact ⟨_, (hbad hslash).1, (hbad hslash).2⟩

/-- C10 at `sampleV0`, whose three name fields are free of "/". -/
theorem upgrade_chain_V0_to_V2_witness :
    ∃ v1, ResourceStorageShareStateUpgradeV0ToV1 sampleV0 Meta.other = Run.returned v1 none
      ∧ v1.get "id" = Value.str ("sh1" ++ "/" ++ "rg1" ++ "/" ++ "acct1")
      ∧ ((∃ v2, ResourceStorageShareStateUpgradeV1ToV2 sdkGetResourceID v1
              (Meta.client publicClient) = Run.returned v2 none)
          ↔ ('/' ∉ "sh1".data ∧ '/' ∉ "rg1".data ∧ '/' ∉ "acct1".data))
      ∧ (('/' ∉ "sh1".data ∧ '/' ∉ "rg1".data ∧ '/' ∉ "acct1".data) →
          ResourceStorageShareStateUpgradeV1ToV2 sdkGetResourceID v1 (Meta.client publicClient)
            = Run.returned
                (v1.set "id"
                  (Value.str (sdkGetResourceID publicClient.Environment "acct1" "sh1"))) none
          ∧ (v1.set "id"
                (Value.str (sdkGetResourceID publicClient.Environment "acct1" "sh1"))).get "id"
            = Value.str (sdkGetResourceID publicClient.Environment "acct1" "sh1"))
      ∧ (¬ ('/' ∉ "sh1".data ∧ '/' ∉ "rg1".data ∧ '/' ∉ "acct1".data) →
          ∃ n, n ≠ 3 ∧
            ResourceStorageShareStateUpgradeV1ToV2 sdkGetResourceID v1
                (Meta.client publicClient)
              = Run.returned v1
                  (some ("Expected 3 segments in the ID but got " ++ toString n))) :=
  upgrade_chain_V0_to_V2 sdkGetResourceID sampleV0 Meta.other publicClient
    "sh1" "rg1" "acct1" "legacy-id" (by decide) (by decide) (by decide) (by decide)

/-- The two steps chained on `sampleV0` end with the SDK identifier of share `sh1` in
account `acct1`; with a resource group named `a/b` the second step reports 4 segments and
keeps the V1 state. -/
theorem upgrade_chain_examples :
    ResourceStorageShareStateUpgradeV1ToV2 sdkGetResourceID
        (sampleV0.set "id" (Value.str "sh1/rg1/acct1")) (Meta.client publicClient)
      = Run.returned
          (sampleV0.set "id" (Value.str "https://acct1.file.core.windows.net/sh1")) none
    ∧ ResourceStorageShareStateUpgradeV0ToV1
        [("id", Value.str "old"), ("name", Value.str "sh1"),
         ("resource_group_name", Value.str "a/b"), ("storage_account_name", Value.str "acct1")]
        Meta.other
      = Run.returned
          [("id", Value.str "sh1/a/b/acct1"), ("name", Value.str "sh1"),
           ("resource_group_name", Value.str "a/b"),
           ("storage_account_name", Value.str "acct1")] none
    ∧ ResourceStorageShareStateUpgradeV1ToV2 sdkGetResourceID
        [("id", Value.str "sh1/a/b/acct1"), ("name", Value.str "sh1"),
         ("resource_group_name", Value.str "a/b"), ("storage_account_name", Value.str "acct1")]
        (Meta.client publicClient)
      = Run.returned
          [("id", Value.str "sh1/a/b/acct1"), ("name", Value.str "sh1"),
           ("resource_group_name", Value.str "a/b"),
           ("storage_account_name", Value.str "acct1")]
          (some "Expected 3 segments in the ID but got 4") := by
  refine ⟨by decide, by decide, by decide⟩

/-! ## Subscriptions data source: lemmas -/

theorem State.lookup_set_self (m : State) (k : String) (v : Value) :
    (m.set k v).lookup k = some v := by
  induction m with
  | nil => simp [State.set, State.lookup]
  | cons kv rest ih =>
    obtain ⟨k', v'⟩ := kv
    by_cases h : k' = k
    · simp [State.set, State.lookup, h]
    · simp [State.set, State.lookup, h, ih]

theorem State.lookup_set_ne (m : State) (k k' : String) (v : Value) (hk : k' ≠ k) :
    (m.set k v).lookup k' = m.lookup k' := by
  induction m with
  | nil => simp [State.set, State.lookup, Ne.symm hk]
  | cons kv rest ih =>
    obtain ⟨k₀, v₀⟩ := kv
    by_cases h : k₀ = k
    · subst h
      simp [State.set, State.lookup, Ne.symm hk]
    · by_cases h' : k₀ = k'
      · subst h'
        simp [State.set, State.lookup, h]
      · simp [State.set, State.lookup, h, h', ih]

theorem flattenSubscription_get_display_name (val : Subscription) :
    (flattenSubscription val).get "display_name"
      = match val.DisplayName with
        | some v => Value.str v
        | none => Value.nil := by
  obtain ⟨id, sid, tid, dn, st, pol, tags⟩ := val
  cases id <;> cases sid <;> cases tid <;> cases dn <;> cases pol with
  | none => simp [flattenSubscription, State.set, State.get]
  | some pl =>
    obtain ⟨lp, qi, sl⟩ := pl
    cases lp <;> cases qi <;> simp [flattenSubscription, State.set, State.get]

theorem strings.HasPrefix_empty (s : String) : strings.HasPrefix s "" = true := by
  simp [strings.HasPrefix]

theorem strings.Contains_empty (s : String) : strings.Contains s "" = true := by
  unfold strings.Contains
  rw [List.any_eq_true]
  exact ⟨s.data, (List.mem_tails _ _).2 (List.suffix_refl _), by simp⟩

/-- With a non-empty `exact_match`, the filter on a record carrying a display name
compares the two strings and nothing else. -/
theorem displayNameFilter_exact (toLower : String → String)
    (lowPrefix lowContains exactMatch dn : String) (val : Subscription)
    (he : exactMatch ≠ "") (hdn : val.DisplayName = some dn) :
    displayNameFilter toLower lowPrefix lowContains exactMatch (flattenSubscription val)
      = some (decide (val.DisplayName = some exactMatch)) := by
  have hget := flattenSubscription_get_display_name val
  rw [hdn] at hget
  by_cases heq : exactMatch = dn
  · subst heq
    simp [displayNameFilter, he, hget, Value.assertString, hdn]
  · have hne : ¬ dn = exactMatch := fun h => heq h.symm
    simp [displayNameFilter, he, hget, Value.assertString, hdn, heq, hne]

/-- With an empty `exact_match`, the filter on a record carrying a display name is the
conjunction of the prefix test and the substring test on the lower-cased name. -/
theorem displayNameFilter_no_exact (toLower : String → String)
    (lowPrefix lowContains dn : String) (val : Subscription)
    (hdn : val.DisplayName = some dn) :
    displayNameFilter toLower lowPrefix lowContains "" (flattenSubscription val)
      = some (strings.HasPrefix (toLower dn) lowPrefix
          && strings.Contains (toLower dn) lowContains) := by
  have hget := flattenSubscription_get_display_name val
  rw [hdn] at hget
  by_cases hp : lowPrefix = ""
  · by_cases hc : lowContains = ""
    · simp [displayNameFilter, hp, hc, strings.HasPrefix_empty, strings.Contains_empty]
    · cases hC : strings.Contains (toLower dn) lowContains <;>
        simp [displayNameFilter, hp, hc, hget, Value.assertString,
          strings.HasPrefix_empty, hC]
  · by_cases hc : lowContains = ""
    · cases hP : strings.HasPrefix (toLower dn) lowPrefix <;>
        simp [displayNameFilter, hp, hc, hget, Value.assertString,
          strings.Contains_empty, hP]
    · cases hP : strings.HasPrefix (toLower dn) lowPrefix <;>
        cases hC : strings.Contains (toLower dn) lowContains <;>
        simp [displayNameFilter, hp, hc, hget, Value.assertString, hP, hC]

/-- When every advance succeeds and the filter is decided by `keep` on every entry, the
loop appends to `acc` the records of the kept entries, in order. -/
theorem subscriptionsLoop_eq_filter (toLower : String → String)
    (tagsFlatten : List (String × Option String) → Value)
    (lowPrefix lowContains exactMatch : String) (keep : Subscription → Bool)
    (src : ListResultIterator) (acc : List State)
    (h : ∀ x ∈ src, x.2 = none ∧
      displayNameFilter toLower lowPrefix lowContains exactMatch (flattenSubscription x.1)
        = some (keep x.1)) :
    subscriptionsLoop toLower tagsFlatten lowPrefix lowContains exactMatch src acc
      = Run.returned
          (acc ++ ((src.map Prod.fst).filter keep).map (subscriptionRecord tagsFlatten))
          none := by
  induction src generalizing acc with
  | nil => simp [subscriptionsLoop]
  | cons x rest ih =>
    obtain ⟨val, next⟩ := x
    have hx := h (val, next) (List.mem_cons_self _ _)
    have hrest : ∀ y ∈ rest, y.2 = none ∧
        displayNameFilter toLower lowPrefix lowContains exactMatch (flattenSubscription y.1)
          = some (keep y.1) := fun y hy => h y (List.mem_cons_of_mem _ hy)
    simp only at hx
    obtain ⟨hnext, hkeep⟩ := hx
    subst hnext
    cases hk : keep val with
    | false =>
      rw [hk] at hkeep
      simp [subscriptionsLoop, hkeep, hk, ih acc hrest]
    | true =>
      rw [hk] at hkeep
      simp [subscriptionsLoop, hkeep, hk, ih _ hrest, subscriptionRecord]

/-- The loop over `pre ++ rest` runs over `pre` and, if that completes, continues over
`rest` with what was accumulated. -/
theorem subscriptionsLoop_append (toLower : String → String)
    (tagsFlatten : List (String × Option String) → Value)
    (lowPrefix lowContains exactMatch : String)
    (pre rest : ListResultIterator) (acc₀ acc : List State)
    (h : subscriptionsLoop toLower tagsFlatten lowPrefix lowContains exactMatch pre acc₀
      = Run.returned acc none) :
    subscriptionsLoop toLower tagsFlatten lowPrefix lowContains exactMatch (pre ++ rest) acc₀
      = subscriptionsLoop toLower tagsFlatten lowPrefix lowContains exactMatch rest acc := by
  induction pre generalizing acc₀ with
  | nil =>
    simp only [subscriptionsLoop, Run.returned.injEq, and_true] at h
    simp [h]
  | cons x pre ih =>
    obtain ⟨val, next⟩ := x
    cases next with
    | some err => simp [subscriptionsLoop] at h
    | none =>
      simp only [List.cons_append, subscriptionsLoop]
      simp only [subscriptionsLoop] at h
      cases hf : displayNameFilter toLower lowPrefix lowContains exactMatch
          (flattenSubscription val) with
      | none => simp [hf] at h
      | some b =>
        cases b with
        | false =>
          simp only [hf] at h ⊢
          exact ih _ h
        | true =>
          simp only [hf] at h ⊢
          exact ih _ h

/-- On a record carrying a display name the filter never panics. -/
theorem displayNameFilter_isSome (toLower : String → String)
    (lowPrefix lowContains exactMatch dn : String) (val : Subscription)
    (hdn : val.DisplayName = some dn) :
    ∃ b, displayNameFilter toLower lowPrefix lowContains exactMatch (flattenSubscription val)
      = some b := by
  by_cases he : exactMatch = ""
  · subst he
    exact ⟨_, displayNameFilter_no_exact toLower lowPrefix lowContains dn val hdn⟩
  · exact ⟨_, displayNameFilter_exact toLower lowPrefix lowContains exactMatch dn val he hdn⟩

/-- The loop runs to completion, without error and without panic, over entries that all
carry a display name and whose advances all succeed. -/
theorem subscriptionsLoop_completes (toLower : String → String)
    (tagsFlatten : List (String × Option String) → Value)
    (lowPrefix lowContains exactMatch : String)
    (src : ListResultIterator) (acc₀ : List State)
    (h : ∀ x ∈ src, x.1.DisplayName.isSome = true ∧ x.2 = none) :
    ∃ acc, subscriptionsLoop toLower tagsFlatten lowPrefix lowContains exactMatch src acc₀
      = Run.returned acc none := by
  induction src generalizing acc₀ with
  | nil => exact ⟨acc₀, by simp [subscriptionsLoop]⟩
  | cons x rest ih =>
    obtain ⟨val, next⟩ := x
    obtain ⟨hsome, hnext⟩ := h (val, next) (List.mem_cons_self _ _)
    have hrest : ∀ y ∈ rest, y.1.DisplayName.isSome = true ∧ y.2 = none :=
      fun y hy => h y (List.mem_cons_of_mem _ hy)
    simp only at hsome hnext
    subst hnext
    obtain ⟨dn, hdn⟩ := Option.isSome_iff_exists.1 hsome
    obtain ⟨b, hb⟩ := displayNameFilter_isSome toLower lowPrefix lowContains exactMatch
      dn val hdn
    cases b with
    | false =>
      obtain ⟨acc, hacc⟩ := ih acc₀ hrest
      exact ⟨acc, by simp only [subscriptionsLoop, hb]; exact hacc⟩
    | true =>
      obtain ⟨acc, hacc⟩ := ih _ hrest
      exact ⟨acc, by simp only [subscriptionsLoop, hb]; exact hacc⟩

/-! ## Subscriptions data source: theorems -/

/-- C5: when every listed subscription carries a display name and no advance fails, and
`exact_match` is a non-empty string `e`, `dataSourceSubscriptionsRead` returns a nil error
and sets `subscriptions` to the records of the listed subscriptions whose display name is
exactly `e` (string equality, so case-sensitive), in listing order with repeats kept; the
list is the same for every `display_name_prefix` and `display_name_contains`. -/
theorem read_exact_match (toLower : String → String)
    (tagsFlatten : List (String × Option String) → Value)
    (namePrefix nameContains e id₀ : String) (subs₀ : Option (List State))
    (c : Client) (src : ListResultIterator)
    (hsrc : c.ListComplete = Except.ok src)
    (hall : ∀ x ∈ src, x.1.DisplayName.isSome = true ∧ x.2 = none)
    (he : e ≠ "") :
    dataSourceSubscriptionsRead toLower tagsFlatten
        { displayNamePrefix := namePrefix, displayNameContains := nameContains,
          exactMatch := e, Id := id₀, subscriptions := subs₀ } (Meta.client c)
      = Run.returned
          { displayNamePrefix := namePrefix, displayNameContains := nameContains,
            exactMatch := e, Id := "subscriptions-" ++ c.TenantId,
            subscriptions := some
              (((src.map Prod.fst).filter (fun val => decide (val.DisplayName = some e))).map
                (subscriptionRecord tagsFlatten)) } none := by
  have hloop := subscriptionsLoop_eq_filter toLower tagsFlatten (toLower namePrefix)
    (toLower nameContains) e (fun val => decide (val.DisplayName = some e)) src [] (by
      intro x hx
      obtain ⟨hsome, hnext⟩ := hall x hx
      obtain ⟨dn, hdn⟩ := Option.isSome_iff_exists.1 hsome
      exact ⟨hnext, displayNameFilter_exact toLower _ _ e dn x.1 he hdn⟩)
  simp only [dataSourceSubscriptionsRead, Meta.assertClient, hsrc, hloop, List.nil_append]

/-- C5 on the listing "Prod", "prod", "Prod-1", "Prod" with `exact_match = "Prod"` (and a
prefix and a substring criterion that match nothing): exactly the two records named
"Prod" are set. -/
theorem read_exact_match_witness :
    dataSourceSubscriptionsRead asciiToLower keepSetTags
        { displayNamePrefix := "zzz", displayNameContains := "qqq",
          exactMatch := "Prod", Id := "", subscriptions := none }
        (Meta.client (listingClient prodListing))
      = Run.returned
          { displayNamePrefix := "zzz", displayNameContains := "qqq",
            exactMatch := "Prod", Id := "subscriptions-" ++ "t-0",
            subscriptions := some
              (((prodListing.map Prod.fst).filter
                  (fun val => decide (val.DisplayName = some "Prod"))).map
                (subscriptionRecord keepSetTags)) } none
    ∧ ((prodListing.map Prod.fst).filter
          (fun val => decide (val.DisplayName = some "Prod")))
      = [namedSubscription "Prod", namedSubscription "Prod"] :=
  ⟨read_exact_match asciiToLower keepSetTags "zzz" "qqq" "Prod" "" none
      (listingClient prodListing) prodListing rfl (by decide) (by decide),
   by decide⟩

/-- C6: when every listed subscription carries a display name and no advance fails, and
`exact_match` is empty, `dataSourceSubscriptionsRead` returns a nil error and sets
`subscriptions` to the records of the listed subscriptions that satisfy `criteriaMatch`,
in listing order and without deduplication. `toLower` is any lower-casing that maps the
empty string to itself, as Go's does. -/
theorem read_prefix_contains (toLower : String → String)
    (tagsFlatten : List (String × Option String) → Value)
    (namePrefix nameContains id₀ : String) (subs₀ : Option (List State))
    (c : Client) (src : ListResultIterator)
    (htl : toLower "" = "")
    (hsrc : c.ListComplete = Except.ok src)
    (hall : ∀ x ∈ src, x.1.DisplayName.isSome = true ∧ x.2 = none) :
    dataSourceSubscriptionsRead toLower tagsFlatten
        { displayNamePrefix := namePrefix, displayNameContains := nameContains,
          exactMatch := "", Id := id₀, subscriptions := subs₀ } (Meta.client c)
      = Run.returned
          { displayNamePrefix := namePrefix, displayNameContains := nameContains,
            exactMatch := "", Id := "subscriptions-" ++ c.TenantId,
            subscriptions := some
              (((src.map Prod.fst).filter
                  (fun val => criteriaMatch toLower namePrefix nameContains
                    (val.DisplayName.getD ""))).map
                (subscriptionRecord tagsFlatten)) } none := by
  have hloop := subscriptionsLoop_eq_filter toLower tagsFlatten (toLower namePrefix)
    (toLower nameContains) ""
    (fun val => criteriaMatch toLower namePrefix nameContains (val.DisplayName.getD ""))
    src [] (by
      intro x hx
      obtain ⟨hsome, hnext⟩ := hall x hx
      obtain ⟨dn, hdn⟩ := Option.isSome_iff_exists.1 hsome
      refine ⟨hnext, ?_⟩
      rw [displayNameFilter_no_exact toLower _ _ dn x.1 hdn]
      simp only [hdn, Option.getD_some, criteriaMatch]
      by_cases hp : namePrefix = ""
      · by_cases hc : nameContains = ""
        · simp [hp, hc, htl, strings.HasPrefix_empty, strings.Contains_empty]
        · have hc' : (nameContains == "") = false := by simpa using hc
          simp [hp, hc', htl, strings.HasPrefix_empty]
      · have hp' : (namePrefix == "") = false := by simpa using hp
        by_cases hc : nameContains = ""
        · simp [hp', hc, htl, strings.Contains_empty]
        · have hc' : (nameContains == "") = false := by simpa using hc
          simp [hp', hc'])
  simp only [dataSourceSubscriptionsRead, Meta.assertClient, hsrc, hloop, List.nil_append]

/-- C6 on the listing "Dev-1", "Staging": with prefix "dev" only "Dev-1" is kept, and with
all three criteria empty both records are kept. -/
theorem read_prefix_contains_witness :
    dataSourceSubscriptionsRead asciiToLower keepSetTags
        { displayNamePrefix := "dev", displayNameContains := "",
          exactMatch := "", Id := "", subscriptions := none }
        (Meta.client (listingClient devListing))
      = Run.returned
          { displayNamePrefix := "dev", displayNameContains := "",
            exactMatch := "", Id := "subscriptions-" ++ "t-0",
            subscriptions := some
              (((devListing.map Prod.fst).filter
                  (fun val => criteriaMatch asciiToLower "dev" ""
                    (val.DisplayName.getD ""))).map
                (subscriptionRecord keepSetTags)) } none
    ∧ ((devListing.map Prod.fst).filter
          (fun val => criteriaMatch asciiToLower "dev" "" (val.DisplayName.getD "")))
      = [namedSubscription "Dev-1"]
    ∧ ((devListing.map Prod.fst).filter
          (fun val => criteriaMatch asciiToLower "" "" (val.DisplayName.getD "")))
      = [namedSubscription "Dev-1", namedSubscription "Staging"] :=
  ⟨read_prefix_contains asciiToLower keepSetTags "dev" "" "" none
      (listingClient devListing) devListing (by decide) rfl (by decide),
   by decide, by decide⟩

/-- C7: if the enumeration reaches an entry whose `results.Next()` fails (the loop over the
entries before it completed, having accumulated `acc`, which by
`subscriptionsLoop_completes` it does whenever they carry display names and their advances
succeed), `dataSourceSubscriptionsRead`
returns the error "Error going to next subscriptions value: ..." and leaves the
`ResourceData` as it was, so no `subscriptions` value and no id is set: `acc` is dropped
however many records it holds, and the value under the cursor is dropped whatever it is,
even one on which evaluating the match would have panicked. If instead no advance fails
and the match rejects every entry, the read returns a nil error with `subscriptions` set
to the empty list. -/
theorem read_advance_failure (toLower : String → String)
    (tagsFlatten : List (String × Option String) → Value)
    (d : ResourceData) (c : Client) :
    (∀ (pre rest : ListResultIterator) (val : Subscription) (err : String)
        (acc : List State),
        c.ListComplete = Except.ok (pre ++ (val, some err) :: rest) →
        subscriptionsLoop toLower tagsFlatten (toLower d.displayNamePrefix)
            (toLower d.displayNameContains) d.exactMatch pre [] = Run.returned acc none →
        dataSourceSubscriptionsRead toLower tagsFlatten d (Meta.client c)
          = Run.returned d (some ("Error going to next subscriptions value: " ++ err)))
    ∧ (∀ src : ListResultIterator,
        c.ListComplete = Except.ok src →
        (∀ x ∈ src, x.2 = none ∧
          displayNameFilter toLower (toLower d.displayNamePrefix)
            (toLower d.displayNameContains) d.exactMatch (flattenSubscription x.1)
              = some false) →
        dataSourceSubscriptionsRead toLower tagsFlatten d (Meta.client c)
          = Run.returned
              { d with Id := "subscriptions-" ++ c.TenantId, subscriptions := some [] }
              none) := by
  constructor
  · intro pre rest val err acc hsrc hpre
    have hloop := subscriptionsLoop_append toLower tagsFlatten (toLower d.displayNamePrefix)
      (toLower d.displayNameContains) d.exactMatch pre ((val, some err) :: rest) [] acc hpre
    simp only [dataSourceSubscriptionsRead, Meta.assertClient, hsrc, hloop,
      subscriptionsLoop]
  · intro src hsrc hall
    have hloop := subscriptionsLoop_eq_filter toLower tagsFlatten
      (toLower d.displayNamePrefix) (toLower d.displayNameContains) d.exactMatch
      (fun _ => false) src [] hall
    simp only [dataSourceSubscriptionsRead, Meta.assertClient, hsrc, hloop,
      List.filter_false, List.map_nil, List.append_nil]

/-- C7 on `failingListing` with `exact_match = "Prod"`: one matching record had been
accumulated when the advance failed, yet the read returns the error and sets nothing; on
`devListing`, where nothing is named "Prod", the read succeeds with an empty list. -/
theorem read_advance_failure_witness :
    subscriptionsLoop asciiToLower keepSetTags (asciiToLower "") (asciiToLower "") "Prod"
        [(namedSubscription "Prod", none)] []
      = Run.returned [subscriptionRecord keepSetTags (namedSubscription "Prod")] none
    ∧ dataSourceSubscriptionsRead asciiToLower keepSetTags
        { displayNamePrefix := "", displayNameContains := "", exactMatch := "Prod",
          Id := "", subscriptions := none }
        (Meta.client (listingClient failingListing))
      = Run.returned
          { displayNamePrefix := "", displayNameContains := "", exactMatch := "Prod",
            Id := "", subscriptions := none }
          (some ("Error going to next subscriptions value: " ++ "timeout"))
    ∧ dataSourceSubscriptionsRead asciiToLower keepSetTags
        { displayNamePrefix := "", displayNameContains := "", exactMatch := "Prod",
          Id := "", subscriptions := none }
        (Meta.client (listingClient devListing))
      = Run.returned
          { displayNamePrefix := "", displayNameContains := "", exactMatch := "Prod",
            Id := "subscriptions-" ++ "t-0", subscriptions := some [] }
          none :=
  ⟨by decide,
   (read_advance_failure asciiToLower keepSetTags
      { displayNamePrefix := "", displayNameContains := "", exactMatch := "Prod",
        Id := "", subscriptions := none }
      (listingClient failingListing)).1
      [(namedSubscription "Prod", none)] [(namedSubscription "Prod", none)]
      { namedSubscription "ghost" with DisplayName := none } "timeout"
      [subscriptionRecord keepSetTags (namedSubscription "Prod")] rfl (by decide),
   (read_advance_failure asciiToLower keepSetTags
      { displayNamePrefix := "", displayNameContains := "", exactMatch := "Prod",
        Id := "", subscriptions := none }
      (listingClient devListing)).2 devListing rfl (by decide)⟩

/-- C8 fails as stated: for `blankSubscription`, which carries none of the eight fields,
the record holds `state` and `spending_limit`, both with the empty string as value. -/
theorem flat_record_omits_absent_fields_counterexample :
    flattenSubscription blankSubscription
        = [("state", Value.str ""), ("spending_limit", Value.str "")]
    ∧ (∀ field ∈ recordFields, carriedField blankSubscription field = none)
    ∧ (subscriptionRecord keepSetTags blankSubscription).lookup "state"
        = some (Value.str "")
    ∧ (subscriptionRecord keepSetTags blankSubscription).lookup "spending_limit"
        = some (Value.str "")
    ∧ ¬ (∀ (val : Subscription), ∀ field ∈ recordFields,
          (subscriptionRecord keepSetTags val).lookup field
            = (carriedField val field).map Value.str) := by
  refine ⟨by decide, by decide, by decide, by decide, ?_⟩
  intro h
  have h' := h blankSubscription "state" (by decide)
  revert h'
  decide

theorem flattenSubscription_lookup_id (val : Subscription) :
    (flattenSubscription val).lookup "id"
      = val.ID.map Value.str := by
  obtain ⟨id, sid, tid, dn, st, pol, tags⟩ := val
  cases id <;> cases sid <;> cases tid <;> cases dn <;> cases pol with
  | none => simp [flattenSubscription, State.set, State.lookup]
  | some pl =>
    obtain ⟨lp, qi, sl⟩ := pl
    cases lp <;> cases qi <;> simp [flattenSubscription, State.set, State.lookup]

theorem flattenSubscription_lookup_subscription_id (val : Subscription) :
    (flattenSubscription val).lookup "subscription_id"
      = val.SubscriptionID.map Value.str := by
  obtain ⟨id, sid, tid, dn, st, pol, tags⟩ := val
  cases id <;> cases sid <;> cases tid <;> cases dn <;> cases pol with
  | none => simp [flattenSubscription, State.set, State.lookup]
  | some pl =>
    obtain ⟨lp, qi, sl⟩ := pl
    cases lp <;> cases qi <;> simp [flattenSubscription, State.set, State.lookup]

theorem flattenSubscription_lookup_tenant_id (val : Subscription) :
    (flattenSubscription val).lookup "tenant_id"
      = val.TenantID.map Value.str := by
  obtain ⟨id, sid, tid, dn, st, pol, tags⟩ := val
  cases id <;> cases sid <;> cases tid <;> cases dn <;> cases pol with
  | none => simp [flattenSubscription, State.set, State.lookup]
  | some pl =>
    obtain ⟨lp, qi, sl⟩ := pl
    cases lp <;> cases qi <;> simp [flattenSubscription, State.set, State.lookup]

theorem flattenSubscription_lookup_display_name (val : Subscription) :
    (flattenSubscription val).lookup "display_name"
      = val.DisplayName.map Value.str := by
  obtain ⟨id, sid, tid, dn, st, pol, tags⟩ := val
  cases id <;> cases sid <;> cases tid <;> cases dn <;> cases pol with
  | none => simp [flattenSubscription, State.set, State.lookup]
  | some pl =>
    obtain ⟨lp, qi, sl⟩ := pl
    cases lp <;> cases qi <;> simp [flattenSubscription, State.set, State.lookup]

theorem flattenSubscription_lookup_state (val : Subscription) :
    (flattenSubscription val).lookup "state"
      = some (Value.str val.State) := by
  obtain ⟨id, sid, tid, dn, st, pol, tags⟩ := val
  cases id <;> cases sid <;> cases tid <;> cases dn <;> cases pol with
  | none => simp [flattenSubscription, State.set, State.lookup]
  | some pl =>
    obtain ⟨lp, qi, sl⟩ := pl
    cases lp <;> cases qi <;> simp [flattenSubscription, State.set, State.lookup]

theorem flattenSubscription_lookup_location_placement_id (val : Subscription) :
    (flattenSubscription val).lookup "location_placement_id"
      = (val.SubscriptionPolicies.bind (fun p => p.LocationPlacementID)).map Value.str := by
  obtain ⟨id, sid, tid, dn, st, pol, tags⟩ := val
  cases id <;> cases sid <;> cases tid <;> cases dn <;> cases pol with
  | none => simp [flattenSubscription, State.set, State.lookup]
  | some pl =>
    obtain ⟨lp, qi, sl⟩ := pl
    cases lp <;> cases qi <;> simp [flattenSubscription, State.set, State.lookup]

theorem flattenSubscription_lookup_quota_id (val : Subscription) :
    (flattenSubscription val).lookup "quota_id"
      = (val.SubscriptionPolicies.bind (fun p => p.QuotaID)).map Value.str := by
  obtain ⟨id, sid, tid, dn, st, pol, tags⟩ := val
  cases id <;> cases sid <;> cases tid <;> cases dn <;> cases pol with
  | none => simp [flattenSubscription, State.set, State.lookup]
  | some pl =>
    obtain ⟨lp, qi, sl⟩ := pl
    cases lp <;> cases qi <;> simp [flattenSubscription, State.set, State.lookup]

theorem flattenSubscription_lookup_spending_limit (val : Subscription) :
    (flattenSubscription val).lookup "spending_limit"
      = val.SubscriptionPolicies.map (fun p => Value.str p.SpendingLimit) := by
  obtain ⟨id, sid, tid, dn, st, pol, tags⟩ := val
  cases id <;> cases sid <;> cases tid <;> cases dn <;> cases pol with
  | none => simp [flattenSubscription, State.set, State.lookup]
  | some pl =>
    obtain ⟨lp, qi, sl⟩ := pl
    cases lp <;> cases qi <;> simp [flattenSubscription, State.set, State.lookup]

/-- C8 as amended: in the record built for an entity, `id`, `subscription_id`, `tenant_id`
and `display_name` are present exactly when the entity's pointer is set, with its value;
`state` is always present with the entity's state string (the empty string included);
`location_placement_id` and `quota_id` are present exactly when the entity has policies
whose pointer is set; `spending_limit` is present exactly when the entity has policies,
with their spending-limit string (the empty string included). -/
theorem flat_record_fields (tagsFlatten : List (String × Option String) → Value)
    (val : Subscription) :
    (subscriptionRecord tagsFlatten val).lookup "id" = val.ID.map Value.str
    ∧ (subscriptionRecord tagsFlatten val).lookup "subscription_id"
        = val.SubscriptionID.map Value.str
    ∧ (subscriptionRecord tagsFlatten val).lookup "tenant_id" = val.TenantID.map Value.str
    ∧ (subscriptionRecord tagsFlatten val).lookup "display_name"
        = val.DisplayName.map Value.str
    ∧ (subscriptionRecord tagsFlatten val).lookup "state" = some (Value.str val.State)
    ∧ (subscriptionRecord tagsFlatten val).lookup "location_placement_id"
        = (val.SubscriptionPolicies.bind (fun p => p.LocationPlacementID)).map Value.str
    ∧ (subscriptionRecord tagsFlatten val).lookup "quota_id"
        = (val.SubscriptionPolicies.bind (fun p => p.QuotaID)).map Value.str
    ∧ (subscriptionRecord tagsFlatten val).lookup "spending_limit"
        = val.SubscriptionPolicies.map (fun p => Value.str p.SpendingLimit) := by
  refine ⟨?_, ?_, ?_, ?_, ?_, ?_, ?_, ?_⟩
  · rw [subscriptionRecord, State.lookup_set_ne _ _ _ _ (by decide)]
    exact flattenSubscription_lookup_id val
  · rw [subscriptionRecord, State.lookup_set_ne _ _ _ _ (by decide)]
    exact flattenSubscription_lookup_subscription_id val
  · rw [subscriptionRecord, State.lookup_set_ne _ _ _ _ (by decide)]
    exact flattenSubscription_lookup_tenant_id val
  · rw [subscriptionRecord, State.lookup_set_ne _ _ _ _ (by decide)]
    exact flattenSubscription_lookup_display_name val
  · rw [subscriptionRecord, State.lookup_set_ne _ _ _ _ (by decide)]
    exact flattenSubscription_lookup_state val
  · rw [subscriptionRecord, State.lookup_set_ne _ _ _ _ (by decide)]
    exact flattenSubscription_lookup_location_placement_id val
  · rw [subscriptionRecord, State.lookup_set_ne _ _ _ _ (by decide)]
    exact flattenSubscription_lookup_quota_id val
  · rw [subscriptionRecord, State.lookup_set_ne _ _ _ _ (by decide)]
    exact flattenSubscription_lookup_spending_limit val

/-- The read evaluated on two listings: with prefix "dev" over "Dev-1", "Staging" the
single record of "Dev-1" is set, tags included; on a listing whose first entity has no
display name the read panics as soon as a criterion is configured, and returns every
record when none is. -/
theorem read_examples :
    dataSourceSubscriptionsRead asciiToLower keepSetTags
        { displayNamePrefix := "dev", displayNameContains := "", exactMatch := "",
          Id := "", subscriptions := none }
        (Meta.client (listingClient devListing))
      = Run.returned
          { displayNamePrefix := "dev", displayNameContains := "", exactMatch := "",
            Id := "subscriptions-t-0",
            subscriptions := some
              [[("id", Value.str "/subscriptions/Dev-1"),
                ("subscription_id", Value.str "Dev-1"), ("tenant_id", Value.str "t-0"),
                ("display_name", Value.str "Dev-1"), ("state", Value.str "Enabled"),
                ("tags", Value.strMap [("env", "Dev-1")])]] } none
    ∧ dataSourceSubscriptionsRead asciiToLower keepSetTags
        { displayNamePrefix := "", displayNameContains := "v", exactMatch := "",
          Id := "", subscriptions := none }
        (Meta.client (listingClient [(blankSubscription, none)]))
      = Run.panic
    ∧ dataSourceSubscriptionsRead asciiToLower keepSetTags
        { displayNamePrefix := "", displayNameContains := "", exactMatch := "",
          Id := "", subscriptions := none }
        (Meta.client (listingClient [(blankSubscription, none)]))
      = Run.returned
          { displayNamePrefix := "", displayNameContains := "", exactMatch := "",
            Id := "subscriptions-t-0",
            subscriptions := some
              [[("state", Value.str ""), ("spending_limit", Value.str ""),
                ("tags", Value.strMap [])]] } none := by
  refine ⟨by decide, by decide, by decide⟩

end AzureRM
